import Mathlib

/-!
Shallow embedding of `src/epanet/app/epanet.py` (Raouloe/OT-Simulation):
a cycle orchestrator bridging an EPANET hydraulic simulation with an
OpenPLC field controller over Modbus TCP.

Registers are modelled as `Nat` (16-bit words, reduced mod 65536 at the
read boundary), coils as `Bool`, and decoded pump settings / telemetry
values as `Rat` (the Python floats of interest here, such as r / 100.0
with r < 65536, are exact).  The Modbus client and the EPANET engine are
external collaborators: their calls are modelled as events or as
parameters, faithful to how the script invokes them.
-/

namespace OTSim

/-- A decoded control frame: `pipe_statuses` (code convention: 1 = open,
0 = closed, as produced by `i ^ 1` over the coil bits) and
`pump_settings` (raw register / 100.0), mirroring the dict returned by
`get_controls`. -/
structure ControlFrame where
  pipe_statuses : List Nat
  pump_settings : List Rat
deriving Repr, DecidableEq

/-- A telemetry frame as assembled by `read_data`: junction pressures,
tank heads and pump flows, each in canonical index order. -/
structure TelemetryFrame where
  junction_pressures : List Rat
  tank_heads : List Rat
  pump_flows : List Rat
deriving Repr, DecidableEq

/-- The remote Modbus data tables visible to the client: one bit per
coil address and one 16-bit word per holding-register address. -/
structure Wire where
  coils : Nat → Bool
  holding : Nat → Nat

/-- `client.read_coils(base, count).bits`: the block of `count` coil
bits starting at `base` (FieldLink contract: the returned sequence has
exactly `count` entries). -/
def read_coils (w : Wire) (base count : Nat) : List Bool :=
  (List.range count).map (fun i => w.coils (base + i))

/-- `client.read_holding_registers(base, count).registers`: the block of
`count` unsigned 16-bit words starting at `base`. -/
def read_holding_registers (w : Wire) (base count : Nat) : List Nat :=
  (List.range count).map (fun i => w.holding (base + i) % 65536)

/-- The body of the `pipe_statuses` comprehension in `get_controls`:
`i ^ 1` applied to one coil bit (Python bool XOR int yields int). -/
def decode_coil (b : Bool) : Nat :=
  (if b then 1 else 0) ^^^ 1

/-- The body of the `pump_settings` comprehension in `get_controls`:
`i / 100.0` applied to one raw register value. -/
def decode_register (r : Nat) : Rat :=
  (r : Rat) / 100

/-- `get_controls(client)`: read coils 0..99 and holding registers 0..99
and decode both blocks. -/
def get_controls (w : Wire) : ControlFrame :=
  { pipe_statuses := (read_coils w 0 100).map decode_coil
  , pump_settings := (read_holding_registers w 0 100).map decode_register }

/-- `set_controls(en, controls)`: the two `zip` loops.  The pairs
`(index, value)` actually passed to `en.setLinkStatus` respectively
`en.setLinkSettings`, in order.  `zip` truncates to the shorter of the
two sequences and never raises on a length mismatch. -/
def set_controls (pipeIdx pumpIdx : List Nat) (c : ControlFrame) :
    List (Nat × Nat) × List (Nat × Rat) :=
  (pipeIdx.zip c.pipe_statuses, pumpIdx.zip c.pump_settings)

/-- `setup_client`: the loop `while not client.connect(): time.sleep(1)`.
`outcomes` lists the result of each successive `client.connect()` call
(which returns a boolean and does not raise).  Returns
`some (attempts, sleeps)` once a call succeeds; `none` if every listed
attempt fails (the real loop would still be running). -/
def connectLoop : List Bool → Option (Nat × Nat)
  | [] => none
  | b :: rest =>
    if b then some (1, 0)
    else (connectLoop rest).map (fun p => (p.1 + 1, p.2 + 1))

/-- One `for i, value in enumerate(...)` loop of `write_data`: starting
at loop counter `i`, emit one `client.write_registers(base + i * 2, enc value)`
call per value, where `enc` stands for
`client.convert_to_registers(value, client.DATATYPE.FLOAT32)`
(modelled as a parameter: pymodbus encodes a FLOAT32 as 2 consecutive
16-bit registers). -/
def writeBlock (enc : Rat → List Nat) (base : Nat) : Nat → List Rat → List (Nat × List Nat)
  | _, [] => []
  | i, v :: vs => (base + i * 2, enc v) :: writeBlock enc base (i + 1) vs

/-- `write_data(client, data)`: junction pressures at base 100, tank
heads at base 200, pump flows at base 300, each block in index order. -/
def write_data (enc : Rat → List Nat) (d : TelemetryFrame) : List (Nat × List Nat) :=
  writeBlock enc 100 0 d.junction_pressures ++
  writeBlock enc 200 0 d.tank_heads ++
  writeBlock enc 300 0 d.pump_flows

/-- The 16-bit registers a single `write_registers(addr, regs)` call
occupies: `addr, addr + 1, ...`, one per register in the payload. -/
def regsOf (wcall : Nat × List Nat) : List Nat :=
  (List.range wcall.2.length).map (fun k => wcall.1 + k)

/-! ### Wire-address footprints (RegisterMap)

The script reads fixed blocks (coils 0..99 and holding registers 0..99
in `get_controls`) and writes one float32 register pair per telemetry
asset (`write_data`).  Modbus coils and 16-bit registers are distinct
address spaces. -/

/-- Wire kind of an address: coil (bit) or 16-bit register. -/
inductive WireKind where
  | coil
  | register
deriving DecidableEq, Repr

/-- Coil addresses read for pipe statuses: 0..99 (`read_coils(0, 100)`). -/
def pipeStatusFootprint : List (WireKind × Nat) :=
  (List.range 100).map (fun a => (WireKind.coil, a))

/-- Holding-register addresses read for pump settings: 0..99
(`read_holding_registers(0, 100)`). -/
def pumpSettingFootprint : List (WireKind × Nat) :=
  (List.range 100).map (fun a => (WireKind.register, a))

/-- Register addresses occupied by `n` consecutive float32 pairs
starting at `base`: pair `i` occupies `base + 2i` and `base + 2i + 1`. -/
def pairAddrs (base n : Nat) : List Nat :=
  (List.range n).flatMap (fun i => [base + 2 * i, base + 2 * i + 1])

/-- Registers written for the pressures of `n` junctions (base 100). -/
def junctionFootprint (n : Nat) : List (WireKind × Nat) :=
  (pairAddrs 100 n).map (fun a => (WireKind.register, a))

/-- Registers written for the heads of `n` tanks (base 200). -/
def tankFootprint (n : Nat) : List (WireKind × Nat) :=
  (pairAddrs 200 n).map (fun a => (WireKind.register, a))

/-- Registers written for the flows of `n` pumps (base 300). -/
def pumpFlowFootprint (n : Nat) : List (WireKind × Nat) :=
  (pairAddrs 300 n).map (fun a => (WireKind.register, a))

/-- The C6 invariant as the spec states it: for a network with `nj`
junctions, `nt` tanks and `npf` pumps, the five per-quantity address
ranges are pairwise disjoint. -/
def footprintsDisjoint (nj nt npf : Nat) : Prop :=
  List.Pairwise (fun xs ys => ∀ a ∈ xs, a ∉ ys)
    [pipeStatusFootprint, pumpSettingFootprint,
     junctionFootprint nj, tankFootprint nt, pumpFlowFootprint npf]

instance (nj nt npf : Nat) : Decidable (footprintsDisjoint nj nt npf) := by
  unfold footprintsDisjoint
  infer_instance

/-! ### One Running cycle as a trace of collaborator calls

The body of the `while True` loop in `main`, lines 122-135: extend the
simulation duration, `get_controls`, `set_controls`, `runHydraulicAnalysis`,
`read_data`, `write_data`, `nextHydraulicAnalysisStep`, `time.sleep(1)`. -/

/-- The asset-index sequences of the loaded network, as returned by
`getNodeJunctionIndex`, `getNodeTankIndex`, `getLinkPipeIndex` and
`getLinkPumpIndex` (stable for the run). -/
structure Network where
  junctionIdx : List Nat
  tankIdx : List Nat
  pipeIdx : List Nat
  pumpIdx : List Nat
deriving Repr, DecidableEq

/-- One observable call made during a Running cycle. -/
inductive Ev where
  | extendDuration
  | readCoilBlock (base count : Nat)
  | readHoldingBlock (base count : Nat)
  | setLinkStatus (idx status : Nat)
  | setLinkSettings (idx : Nat) (value : Rat)
  | runHydraulics
  | getNodePressure (idx : Nat)
  | getNodeHydraulicHead (idx : Nat)
  | getLinkFlows (idx : Nat)
  | writeRegisterPair (addr : Nat)
  | nextHydraulicStep
  | sleepSecond
deriving Repr, DecidableEq

/-- The engine calls of `set_controls`: one `setLinkStatus` per zipped
pipe, then one `setLinkSettings` per zipped pump. -/
def set_controls_trace (net : Network) (c : ControlFrame) : List Ev :=
  ((net.pipeIdx.zip c.pipe_statuses).map (fun p => Ev.setLinkStatus p.1 p.2)) ++
  ((net.pumpIdx.zip c.pump_settings).map (fun p => Ev.setLinkSettings p.1 p.2))

/-- The engine reads of `read_data`: pressures per junction, heads per
tank, flows per pump, in index order. -/
def read_data_trace (net : Network) : List Ev :=
  (net.junctionIdx.map Ev.getNodePressure) ++
  (net.tankIdx.map Ev.getNodeHydraulicHead) ++
  (net.pumpIdx.map Ev.getLinkFlows)

/-- The `write_registers` calls of `write_data`, one per telemetry
asset, at the bases and strides of `write_data`. -/
def write_data_trace (net : Network) : List Ev :=
  ((List.range net.junctionIdx.length).map (fun i => Ev.writeRegisterPair (100 + i * 2))) ++
  ((List.range net.tankIdx.length).map (fun i => Ev.writeRegisterPair (200 + i * 2))) ++
  ((List.range net.pumpIdx.length).map (fun i => Ev.writeRegisterPair (300 + i * 2)))

/-- One full Running cycle, in the order of `main`. -/
def cycle_trace (net : Network) (c : ControlFrame) : List Ev :=
  Ev.extendDuration ::
  Ev.readCoilBlock 0 100 ::
  Ev.readHoldingBlock 0 100 ::
  (set_controls_trace net c ++
   Ev.runHydraulics ::
   (read_data_trace net ++
    write_data_trace net ++
    [Ev.nextHydraulicStep, Ev.sleepSecond]))

/-- Events that apply a control value to the engine. -/
def Ev.isControlApply : Ev → Bool
  | Ev.setLinkStatus _ _ => true
  | Ev.setLinkSettings _ _ => true
  | _ => false

/-- Events that read a telemetry value from the engine. -/
def Ev.isTelemetryRead : Ev → Bool
  | Ev.getNodePressure _ => true
  | Ev.getNodeHydraulicHead _ => true
  | Ev.getLinkFlows _ => true
  | _ => false

/-! ### Process lifecycle: `main`, its handlers and its `finally` block -/

/-- How the `try` block of `main` ends: a setup helper exits before
`client` (resp. `en`) is bound, the user interrupts, or an error ends a
Running cycle. -/
inductive Fate where
  | clientSetupFail
  | epanetSetupFail
  | interrupted
  | cycleError
deriving DecidableEq, Repr

/-- Observable lifecycle actions: the distinct interrupt message, a
failure message, and the three cleanup calls of the `finally` block. -/
inductive LifeEv where
  | msgStoppedByUser
  | msgError
  | clientClose
  | closeHydraulicAnalysis
  | unload
deriving DecidableEq, Repr

/-- Whether `'client' in locals()` holds when the `finally` block runs. -/
def clientPresent : Fate → Bool
  | Fate.clientSetupFail => false
  | _ => true

/-- Whether `'en' in locals()` holds when the `finally` block runs. -/
def enPresent : Fate → Bool
  | Fate.clientSetupFail => false
  | Fate.epanetSetupFail => false
  | _ => true

/-- The exit status requested before the `finally` block runs:
`sys.exit(0)` on `KeyboardInterrupt`, `sys.exit(1)` otherwise. -/
def pendingExit : Fate → Nat
  | Fate.interrupted => 0
  | _ => 1

/-- The `finally` block of `main`.  It has no exception handler of its
own: if `client.close()` raises (`closeRaises`), the exception
propagates, the `en` cleanup never runs and the process exits 1; if
`en.closeHydraulicAnalysis()` raises (`analysisRaises`), `en.unload()`
never runs and the process exits 1.  Otherwise the pending exit status
stands.  Returns the final exit status and the cleanup calls made. -/
def drain (cp ep closeRaises analysisRaises : Bool) (pending : Nat) :
    Nat × List LifeEv :=
  if cp && closeRaises then
    (1, [LifeEv.clientClose])
  else
    let closeEvs := if cp then [LifeEv.clientClose] else []
    if ep && analysisRaises then
      (1, closeEvs ++ [LifeEv.closeHydraulicAnalysis])
    else if ep then
      (pending, closeEvs ++ [LifeEv.closeHydraulicAnalysis, LifeEv.unload])
    else
      (pending, closeEvs)

/-- The lifecycle of `main` after argument parsing: the message printed
for the way the run ended (the interrupt handler prints the distinct
stopped-by-user line; every failure path prints an error cause), then
the `finally` block.  Returns the process exit status and the lifecycle
events in order. -/
def mainModel (fate : Fate) (closeRaises analysisRaises : Bool) : Nat × List LifeEv :=
  let msg := if fate = Fate.interrupted then LifeEv.msgStoppedByUser else LifeEv.msgError
  let d := drain (clientPresent fate) (enPresent fate) closeRaises analysisRaises
    (pendingExit fate)
  (d.1, msg :: d.2)

/-! ## Theorems -/

/-- C1: decoding the pipe-status coil block is bitwise logical negation:
each decoded status is `1 - b` for the wire bit `b` (wire 1 = closed,
wire 0 = open); an all-zero coil block decodes to all-open (all-1)
statuses, and coil bits `[1, 0]` decode to `[0, 1]`. -/
theorem coil_decode_is_negation :
    (∀ b : Bool, decode_coil b = 1 - (if b then 1 else 0)) ∧
    (∀ w : Wire, (∀ i, i < 100 → w.coils i = false) →
      (get_controls w).pipe_statuses = List.replicate 100 1) ∧
    [true, false].map decode_coil = [0, 1] := by
  refine ⟨fun b => by cases b <;> rfl, fun w h => ?_, by decide⟩
  rw [List.eq_replicate_iff]
  constructor
  · simp [get_controls, read_coils]
  · intro x hx
    simp only [get_controls, read_coils, List.map_map, List.mem_map,
      List.mem_range, Function.comp] at hx
    obtain ⟨i, hi, hx⟩ := hx
    rw [Nat.zero_add, h i hi] at hx
    exact hx.symm

/-- C1 witness: a wire whose coils are all false decodes to 100 open
pipe statuses. -/
theorem coil_decode_is_negation_witness :
    (get_controls ⟨fun _ => false, fun _ => 0⟩).pipe_statuses = List.replicate 100 1 :=
  coil_decode_is_negation.2.1 ⟨fun _ => false, fun _ => 0⟩ (fun _ _ => rfl)

/-- C2: each decoded pump setting is the raw unsigned 16-bit register
value divided by 100; raw registers 150 and 50 decode to 1.5 and 0.5. -/
theorem register_decode_div100 :
    ∀ w : Wire, ∀ i : Nat, i < 100 → w.holding i < 65536 →
      (get_controls w).pump_settings[i]? = some ((w.holding i : Rat) / 100) := by
  intro w i hi hr
  simp only [get_controls, read_holding_registers, List.map_map]
  rw [List.getElem?_map, List.getElem?_range hi]
  simp [Function.comp, decode_register, Nat.zero_add, Nat.mod_eq_of_lt hr]

/-- C2 witness: with holding registers `[150, 50, 0, ...]` the decoded
pump settings start `1.5, 0.5` (Scenario A). -/
theorem register_decode_div100_witness :
    (get_controls ⟨fun _ => false, fun i => if i = 0 then 150 else if i = 1 then 50 else 0⟩).pump_settings[0]? = some (1.5 : Rat) ∧
    (get_controls ⟨fun _ => false, fun i => if i = 0 then 150 else if i = 1 then 50 else 0⟩).pump_settings[1]? = some (0.5 : Rat) := by
  constructor
  · have h := register_decode_div100
      ⟨fun _ => false, fun i => if i = 0 then 150 else if i = 1 then 50 else 0⟩ 0
      (by decide) (by decide)
    rw [h]
    norm_num
  · have h := register_decode_div100
      ⟨fun _ => false, fun i => if i = 0 then 150 else if i = 1 then 50 else 0⟩ 1
      (by decide) (by decide)
    rw [h]
    norm_num

/-- C10: a successful control read always decodes the full fixed blocks
(coils 0..99, holding registers 0..99), so every ControlFrame has
exactly 100 pipe statuses and 100 pump settings, and for any network
with at most 100 pipes (pumps) the decoded sequence is never shorter
than the asset count. -/
theorem control_frame_fixed_size :
    ∀ w : Wire,
      (get_controls w).pipe_statuses.length = 100 ∧
      (get_controls w).pump_settings.length = 100 ∧
      (∀ np : Nat, np ≤ 100 → np ≤ (get_controls w).pipe_statuses.length) ∧
      (∀ np : Nat, np ≤ 100 → np ≤ (get_controls w).pump_settings.length) := by
  intro w
  have h1 : (get_controls w).pipe_statuses.length = 100 := by
    simp [get_controls, read_coils]
  have h2 : (get_controls w).pump_settings.length = 100 := by
    simp [get_controls, read_holding_registers]
  exact ⟨h1, h2, fun np h => h1 ▸ h, fun np h => h2 ▸ h⟩

/-- C10 witness: at a concrete wire and asset count 7 ≤ 100, both
decoded sequences have length 100 and cover the assets. -/
theorem control_frame_fixed_size_witness :
    (get_controls ⟨fun _ => true, fun _ => 65535⟩).pipe_statuses.length = 100 ∧
    7 ≤ (get_controls ⟨fun _ => true, fun _ => 65535⟩).pump_settings.length :=
  ⟨(control_frame_fixed_size ⟨fun _ => true, fun _ => 65535⟩).1,
   (control_frame_fixed_size ⟨fun _ => true, fun _ => 65535⟩).2.2.2 7 (by decide)⟩

/-- C4: the connect loop never raises and returns exactly when an
attempt succeeds: if the first `n` attempts fail and attempt `n + 1`
succeeds, it returns after `n + 1` attempts and `n` one-second sleeps;
in particular two failures then a success return after the third
attempt (Scenario D). -/
theorem connect_retries_until_success :
    (∀ n : Nat, ∀ rest : List Bool,
      connectLoop (List.replicate n false ++ true :: rest) = some (n + 1, n)) ∧
    connectLoop [false, false, true] = some (3, 2) := by
  have key : ∀ n : Nat, ∀ rest : List Bool,
      connectLoop (List.replicate n false ++ true :: rest) = some (n + 1, n) := by
    intro n
    induction n with
    | zero => intro rest; rfl
    | succ k ih =>
      intro rest
      rw [List.replicate_succ, List.cons_append]
      simp [connectLoop, ih rest]
  exact ⟨key, key 2 []⟩

/-- Helper: `zip` ignores any extension of the right list once it is at
least as long as the left list. -/
theorem zip_append_right_of_le {α β : Type} (l₁ : List α) :
    ∀ l₂ e : List β, l₁.length ≤ l₂.length → l₁.zip (l₂ ++ e) = l₁.zip l₂ := by
  induction l₁ with
  | nil => intro l₂ e _; simp
  | cons a l₁ ih =>
    intro l₂ e h
    cases l₂ with
    | nil => simp at h
    | cons b l₂ =>
      simp only [List.cons_append, List.zip_cons_cons]
      rw [ih l₂ e (Nat.le_of_succ_le_succ h)]

/-- C5 counterexample: a ControlFrame with fewer pipe statuses (one)
than the network has pipes (two, indices 1 and 2) is applied without
any failure — `set_controls` silently sets only the first pipe, leaving
fewer applied pairs than pipes, instead of being a fatal mismatch. -/
theorem short_frame_applied_cex :
    set_controls [1, 2] [3] ⟨[0], []⟩ = ([(1, 0)], []) ∧
    (set_controls [1, 2] [3] ⟨[0], []⟩).1.length < [1, 2].length := by
  decide

/-- C5 amended: excess decoded values beyond the pipe (pump) count are
ignored, and a frame with fewer values than assets is NOT fatal: `zip`
truncates silently, applying exactly `min(asset count, provided count)`
values. -/
theorem set_controls_truncates :
    ∀ pipeIdx pumpIdx sts extraS : List Nat, ∀ ps extraP : List Rat,
      (pipeIdx.length ≤ sts.length → pumpIdx.length ≤ ps.length →
        set_controls pipeIdx pumpIdx ⟨sts ++ extraS, ps ++ extraP⟩ =
          set_controls pipeIdx pumpIdx ⟨sts, ps⟩) ∧
      (set_controls pipeIdx pumpIdx ⟨sts, ps⟩).1.length = min pipeIdx.length sts.length ∧
      (set_controls pipeIdx pumpIdx ⟨sts, ps⟩).2.length = min pumpIdx.length ps.length := by
  intro pipeIdx pumpIdx sts extraS ps extraP
  refine ⟨fun h1 h2 => ?_, ?_, ?_⟩
  · simp only [set_controls]
    rw [zip_append_right_of_le pipeIdx sts extraS h1,
      zip_append_right_of_le pumpIdx ps extraP h2]
  · simp [set_controls, List.length_zip]
  · simp [set_controls, List.length_zip]

/-- C5 amended witness: two pipes, three statuses — the excess status is
ignored and exactly two pairs are applied. -/
theorem set_controls_truncates_witness :
    set_controls [1, 2] [] ⟨[0, 1] ++ [1], [] ++ []⟩ = set_controls [1, 2] [] ⟨[0, 1], []⟩ ∧
    (set_controls [1, 2] [] ⟨[0, 1], []⟩).1.length = min 2 2 :=
  ⟨(set_controls_truncates [1, 2] [] [0, 1] [1] [] []).1 (by decide) (by decide),
   (set_controls_truncates [1, 2] [] [0, 1] [] [] []).2.1⟩

/-- C8: with no failure inside the `finally` block, the exit status is
0 exactly for a user interrupt (which also, and only which, prints the
distinct stopped-by-user message first), and 1 for every other fatal
fate (client setup, EPANET setup, or cycle error); on an interrupt
between cycles, `client.close()` and `en.closeHydraulicAnalysis()` are
each invoked exactly once before exit. -/
theorem exit_status_and_cleanup :
    ∀ fate : Fate,
      ((mainModel fate false false).1 = 0 ↔ fate = Fate.interrupted) ∧
      ((mainModel fate false false).2.head? = some LifeEv.msgStoppedByUser ↔
        fate = Fate.interrupted) ∧
      (fate = Fate.interrupted →
        (mainModel fate false false).2.count LifeEv.clientClose = 1 ∧
        (mainModel fate false false).2.count LifeEv.closeHydraulicAnalysis = 1) := by
  intro fate
  cases fate <;> refine ⟨⟨?_, ?_⟩, ⟨?_, ?_⟩, ?_⟩ <;> decide

/-- C8 witness: the interrupted fate exits 0 with one close and one
teardown; the cycle-error fate exits nonzero. -/
theorem exit_status_and_cleanup_witness :
    (mainModel Fate.interrupted false false).1 = 0 ∧
    (mainModel Fate.interrupted false false).2.count LifeEv.clientClose = 1 ∧
    (mainModel Fate.interrupted false false).2.count LifeEv.closeHydraulicAnalysis = 1 ∧
    ¬ (mainModel Fate.cycleError false false).1 = 0 :=
  ⟨(exit_status_and_cleanup Fate.interrupted).1.mpr rfl,
   ((exit_status_and_cleanup Fate.interrupted).2.2 rfl).1,
   ((exit_status_and_cleanup Fate.interrupted).2.2 rfl).2,
   fun h => Fate.noConfusion ((exit_status_and_cleanup Fate.cycleError).1.mp h)⟩

/-- C9 counterexample: on a user interrupt, if `client.close()` raises
inside the unguarded `finally` block, the exception propagates —
`en.closeHydraulicAnalysis()` is never invoked and the exit status
becomes 1 instead of 0, so a draining failure does prevent the
remaining draining actions and does alter the exit status. -/
theorem drain_error_propagates_cex :
    (mainModel Fate.interrupted true false).1 = 1 ∧
    (mainModel Fate.interrupted true false).2.count LifeEv.closeHydraulicAnalysis = 0 ∧
    (mainModel Fate.interrupted true false).2.count LifeEv.unload = 0 := by
  decide

/-- C9 amended: the `finally` block always executes regardless of the
preceding fate — it closes the client whenever one was bound, and when
no cleanup call raises it runs to completion — but it is unguarded:
an error while closing the FieldLink propagates, skipping the engine
teardown and forcing a nonzero exit, and an error in
`closeHydraulicAnalysis` skips `unload` and forces a nonzero exit. -/
theorem drain_unguarded_amended :
    ∀ fate : Fate, ∀ cr ar : Bool,
      (clientPresent fate = true → LifeEv.clientClose ∈ (mainModel fate cr ar).2) ∧
      (cr = false → ar = false → enPresent fate = true →
        (mainModel fate cr ar).2.count LifeEv.closeHydraulicAnalysis = 1 ∧
        (mainModel fate cr ar).2.count LifeEv.unload = 1) ∧
      (clientPresent fate = true → cr = true →
        (mainModel fate cr ar).2.count LifeEv.closeHydraulicAnalysis = 0 ∧
        (mainModel fate cr ar).1 = 1) ∧
      (enPresent fate = true → cr = false → ar = true →
        (mainModel fate cr ar).2.count LifeEv.unload = 0 ∧
        (mainModel fate cr ar).1 = 1) := by
  intro fate cr ar
  cases fate <;> cases cr <;> cases ar <;>
    exact ⟨by decide, by decide, by decide, by decide⟩

/-- C9 amended witness: concrete instances — on a clean interrupt the
teardown runs once, and with a raising close it is skipped with exit 1. -/
theorem drain_unguarded_amended_witness :
    LifeEv.clientClose ∈ (mainModel Fate.interrupted false false).2 ∧
    (mainModel Fate.interrupted false false).2.count LifeEv.unload = 1 ∧
    (mainModel Fate.cycleError true false).2.count LifeEv.closeHydraulicAnalysis = 0 ∧
    (mainModel Fate.cycleError true false).1 = 1 :=
  ⟨(drain_unguarded_amended Fate.interrupted false false).1 rfl,
   ((drain_unguarded_amended Fate.interrupted false false).2.1 rfl rfl rfl).2,
   ((drain_unguarded_amended Fate.cycleError true false).2.2.1 rfl rfl).1,
   ((drain_unguarded_amended Fate.cycleError true false).2.2.1 rfl rfl).2⟩

/-- Helper: `pairAddrs base n` is exactly the interval
`[base, base + 2n)` of register addresses. -/
theorem mem_pairAddrs (base n a : Nat) :
    a ∈ pairAddrs base n ↔ base ≤ a ∧ a < base + 2 * n := by
  simp only [pairAddrs, List.mem_flatMap, List.mem_range, List.mem_cons,
    List.not_mem_nil, or_false]
  constructor
  · rintro ⟨i, hi, h | h⟩ <;> omega
  · intro h
    exact ⟨(a - base) / 2, by omega, by omega⟩

/-- C6 counterexample: with 51 junctions and 1 tank — both within the
documented maximum of 100 slots per quantity — register 200 is written
both for junction pair 50 (100 + 2·50) and for tank pair 0, so the
junction-pressure and tank-head address ranges overlap. -/
theorem telemetry_overlap_cex :
    51 ≤ 100 ∧ 1 ≤ 100 ∧
    (WireKind.register, 200) ∈ junctionFootprint 51 ∧
    (WireKind.register, 200) ∈ tankFootprint 1 ∧
    ¬ footprintsDisjoint 51 1 0 := by
  refine ⟨by norm_num, by norm_num, by decide, by decide, fun h => ?_⟩
  unfold footprintsDisjoint at h
  have h1 := (List.pairwise_cons.mp h).2
  have h2 := (List.pairwise_cons.mp h1).2
  have h3 := (List.pairwise_cons.mp h2).1
  exact h3 (tankFootprint 1) (by simp) (WireKind.register, 200) (by decide) (by decide)

/-- C6 amended: the five per-quantity address ranges are pairwise
disjoint for every network with at most 50 junctions, at most 50 tanks
and at most 100 pumps — the 100-slot maxima of the spec table make the
junction block (base 100) collide with the tank block (base 200), and
the tank block with the pump-flow block (base 300), as soon as more
than 50 junctions or tanks exist. -/
theorem footprints_disjoint_amended :
    ∀ nj nt npf : Nat, nj ≤ 50 → nt ≤ 50 → npf ≤ 100 →
      footprintsDisjoint nj nt npf := by
  intro nj nt npf hj ht hf
  have mcoil : ∀ a : WireKind × Nat, a ∈ pipeStatusFootprint → a.1 = WireKind.coil := by
    intro a ha
    simp only [pipeStatusFootprint, List.mem_map, List.mem_range] at ha
    obtain ⟨i, _, rfl⟩ := ha
    rfl
  have mps : ∀ a : WireKind × Nat, a ∈ pumpSettingFootprint →
      a.1 = WireKind.register ∧ a.2 < 100 := by
    intro a ha
    simp only [pumpSettingFootprint, List.mem_map, List.mem_range] at ha
    obtain ⟨i, hi, rfl⟩ := ha
    exact ⟨rfl, hi⟩
  have mj : ∀ a : WireKind × Nat, a ∈ junctionFootprint nj →
      a.1 = WireKind.register ∧ 100 ≤ a.2 ∧ a.2 < 100 + 2 * nj := by
    intro a ha
    simp only [junctionFootprint, List.mem_map, mem_pairAddrs] at ha
    obtain ⟨r, hr, rfl⟩ := ha
    exact ⟨rfl, hr.1, hr.2⟩
  have mt : ∀ a : WireKind × Nat, a ∈ tankFootprint nt →
      a.1 = WireKind.register ∧ 200 ≤ a.2 ∧ a.2 < 200 + 2 * nt := by
    intro a ha
    simp only [tankFootprint, List.mem_map, mem_pairAddrs] at ha
    obtain ⟨r, hr, rfl⟩ := ha
    exact ⟨rfl, hr.1, hr.2⟩
  have mf : ∀ a : WireKind × Nat, a ∈ pumpFlowFootprint npf →
      a.1 = WireKind.register ∧ 300 ≤ a.2 ∧ a.2 < 300 + 2 * npf := by
    intro a ha
    simp only [pumpFlowFootprint, List.mem_map, mem_pairAddrs] at ha
    obtain ⟨r, hr, rfl⟩ := ha
    exact ⟨rfl, hr.1, hr.2⟩
  unfold footprintsDisjoint
  refine List.Pairwise.cons ?_ (List.Pairwise.cons ?_ (List.Pairwise.cons ?_
    (List.Pairwise.cons ?_ (List.Pairwise.cons
      (fun y hy => absurd hy (List.not_mem_nil y)) List.Pairwise.nil))))
  · intro y hy a ha hay
    have hk := mcoil a ha
    simp only [List.mem_cons, List.not_mem_nil, or_false] at hy
    rcases hy with rfl | rfl | rfl | rfl
    · have h2 := (mps a hay).1
      rw [hk] at h2
      exact WireKind.noConfusion h2
    · have h2 := (mj a hay).1
      rw [hk] at h2
      exact WireKind.noConfusion h2
    · have h2 := (mt a hay).1
      rw [hk] at h2
      exact WireKind.noConfusion h2
    · have h2 := (mf a hay).1
      rw [hk] at h2
      exact WireKind.noConfusion h2
  · intro y hy a ha hay
    obtain ⟨-, hb⟩ := mps a ha
    simp only [List.mem_cons, List.not_mem_nil, or_false] at hy
    rcases hy with rfl | rfl | rfl
    · obtain ⟨-, hb2, -⟩ := mj a hay
      omega
    · obtain ⟨-, hb2, -⟩ := mt a hay
      omega
    · obtain ⟨-, hb2, -⟩ := mf a hay
      omega
  · intro y hy a ha hay
    obtain ⟨-, -, hb⟩ := mj a ha
    simp only [List.mem_cons, List.not_mem_nil, or_false] at hy
    rcases hy with rfl | rfl
    · obtain ⟨-, hb2, -⟩ := mt a hay
      omega
    · obtain ⟨-, hb2, -⟩ := mf a hay
      omega
  · intro y hy a ha hay
    obtain ⟨-, -, hb⟩ := mt a ha
    simp only [List.mem_cons, List.not_mem_nil, or_false] at hy
    rcases hy with rfl
    obtain ⟨-, hb2, -⟩ := mf a hay
    omega

/-- C6 amended witness: at the corrected maxima (50 junctions, 50
tanks, 100 pumps) the footprints are pairwise disjoint. -/
theorem footprints_disjoint_amended_witness :
    footprintsDisjoint 50 50 100 :=
  footprints_disjoint_amended 50 50 100 (by norm_num) (by norm_num) (by norm_num)

/-- Helper: a write block has one `write_registers` call per value. -/
theorem writeBlock_length (enc : Rat → List Nat) (base : Nat) :
    ∀ j : Nat, ∀ vs : List Rat, (writeBlock enc base j vs).length = vs.length := by
  intro j vs
  induction vs generalizing j with
  | nil => rfl
  | cons v vs ih => simp [writeBlock, ih]

/-- Helper: the `k`-th call of a write block started at loop counter `j`
writes the `k`-th value at address `base + (j + k) * 2`. -/
theorem writeBlock_getElem (enc : Rat → List Nat) (base : Nat) :
    ∀ vs : List Rat, ∀ j k : Nat,
      (writeBlock enc base j vs)[k]? =
        vs[k]?.map (fun v => (base + (j + k) * 2, enc v)) := by
  intro vs
  induction vs with
  | nil => intro j k; rfl
  | cons v vs ih =>
    intro j k
    cases k with
    | zero => simp [writeBlock]
    | succ k =>
      simp only [writeBlock, List.getElem?_cons_succ]
      rw [ih (j + 1) k]
      have harith2 : j + 1 + k = j + (k + 1) := by omega
      simp only [harith2]

/-- C7: `write_data` emits one register-pair write per asset in
canonical index order, at fixed bases with stride 2: the `i`-th
junction pressure at register `100 + 2i`, the `i`-th tank head at
`200 + 2i` and the `i`-th pump flow at `300 + 2i`, each payload being
the float32 encoding of the value; a length-2 (float32) payload at
address `a` occupies exactly the consecutive registers `a` and `a + 1`. -/
theorem telemetry_register_layout :
    ∀ enc : Rat → List Nat, ∀ d : TelemetryFrame,
      (∀ i : Nat, ∀ v : Rat, d.junction_pressures[i]? = some v →
        (write_data enc d)[i]? = some (100 + 2 * i, enc v)) ∧
      (∀ i : Nat, ∀ v : Rat, d.tank_heads[i]? = some v →
        (write_data enc d)[d.junction_pressures.length + i]? =
          some (200 + 2 * i, enc v)) ∧
      (∀ i : Nat, ∀ v : Rat, d.pump_flows[i]? = some v →
        (write_data enc d)[d.junction_pressures.length + d.tank_heads.length + i]? =
          some (300 + 2 * i, enc v)) ∧
      (∀ v : Rat, ∀ a : Nat, (enc v).length = 2 → regsOf (a, enc v) = [a, a + 1]) := by
  intro enc d
  have hlenJ : (writeBlock enc 100 0 d.junction_pressures).length =
      d.junction_pressures.length := writeBlock_length enc 100 0 _
  have hlenT : (writeBlock enc 200 0 d.tank_heads).length =
      d.tank_heads.length := writeBlock_length enc 200 0 _
  have hAB : (writeBlock enc 100 0 d.junction_pressures ++
      writeBlock enc 200 0 d.tank_heads).length =
      d.junction_pressures.length + d.tank_heads.length := by
    rw [List.length_append, hlenJ, hlenT]
  refine ⟨?_, ?_, ?_, ?_⟩
  · intro i v h
    have hi : i < d.junction_pressures.length := by
      rcases List.getElem?_eq_some.mp h with ⟨hlt, -⟩
      exact hlt
    unfold write_data
    rw [List.getElem?_append, if_pos (by rw [hAB]; omega)]
    rw [List.getElem?_append, if_pos (by rw [hlenJ]; omega)]
    rw [writeBlock_getElem, h]
    simp [Nat.mul_comm]
  · intro i v h
    have hi : i < d.tank_heads.length := by
      rcases List.getElem?_eq_some.mp h with ⟨hlt, -⟩
      exact hlt
    unfold write_data
    rw [List.getElem?_append, if_pos (by rw [hAB]; omega)]
    rw [List.getElem?_append, if_neg (by rw [hlenJ]; omega)]
    rw [hlenJ, Nat.add_sub_cancel_left]
    rw [writeBlock_getElem, h]
    simp [Nat.mul_comm]
  · intro i v h
    have hi : i < d.pump_flows.length := by
      rcases List.getElem?_eq_some.mp h with ⟨hlt, -⟩
      exact hlt
    unfold write_data
    rw [List.getElem?_append, if_neg (by rw [hAB]; omega)]
    rw [hAB]
    have harith : d.junction_pressures.length + d.tank_heads.length + i -
        (d.junction_pressures.length + d.tank_heads.length) = i := by omega
    rw [harith, writeBlock_getElem, h]
    simp [Nat.mul_comm]
  · intro v a hlen
    simp only [regsOf, hlen]
    rfl

/-- C7 witness: a one-junction, one-tank, one-pump frame with a
length-2 encoder writes registers starting at 100, 200 and 300, and a
length-2 payload at 100 occupies registers 100 and 101. -/
theorem telemetry_register_layout_witness :
    (write_data (fun _ => [0, 0]) ⟨[1], [2], [3]⟩)[0]? = some (100 + 2 * 0, [0, 0]) ∧
    (write_data (fun _ => [0, 0]) ⟨[1], [2], [3]⟩)[1]? = some (200 + 2 * 0, [0, 0]) ∧
    (write_data (fun _ => [0, 0]) ⟨[1], [2], [3]⟩)[2]? = some (300 + 2 * 0, [0, 0]) ∧
    regsOf (100, [0, 0]) = [100, 101] :=
  ⟨(telemetry_register_layout (fun _ => [0, 0]) ⟨[1], [2], [3]⟩).1 0 1 rfl,
   (telemetry_register_layout (fun _ => [0, 0]) ⟨[1], [2], [3]⟩).2.1 0 2 rfl,
   (telemetry_register_layout (fun _ => [0, 0]) ⟨[1], [2], [3]⟩).2.2.1 0 3 rfl,
   (telemetry_register_layout (fun _ => [0, 0]) ⟨[1], [2], [3]⟩).2.2.2 0 100 rfl⟩

/-- C3: within one Running cycle the trace splits as
`pre ++ runHydraulics :: post` with the hydraulic step occurring exactly
once; every control application lies in `pre` (none in `post`) and every
engine telemetry read lies in `post` (none in `pre`); moreover the
control applications are exactly the `set_controls` calls — all pipe
statuses in pipe-index order, then all pump settings in pump-index
order — and the telemetry reads are exactly the `read_data` calls in
canonical index order. -/
theorem cycle_ordering :
    ∀ net : Network, ∀ c : ControlFrame,
      (cycle_trace net c).filter Ev.isControlApply = set_controls_trace net c ∧
      (cycle_trace net c).filter Ev.isTelemetryRead = read_data_trace net ∧
      ∃ pre post : List Ev,
        cycle_trace net c = pre ++ Ev.runHydraulics :: post ∧
        Ev.runHydraulics ∉ pre ∧
        Ev.runHydraulics ∉ post ∧
        (∀ e ∈ pre, e.isTelemetryRead = false) ∧
        (∀ e ∈ post, e.isControlApply = false) := by
  intro net c
  refine ⟨?_, ?_, ?_⟩
  · simp [cycle_trace, set_controls_trace, read_data_trace, write_data_trace,
      List.filter_append, List.filter_map, Function.comp_def, Ev.isControlApply]
  · simp [cycle_trace, set_controls_trace, read_data_trace, write_data_trace,
      List.filter_append, List.filter_map, Function.comp_def, Ev.isTelemetryRead]
  · refine ⟨Ev.extendDuration :: Ev.readCoilBlock 0 100 ::
      Ev.readHoldingBlock 0 100 :: set_controls_trace net c,
      read_data_trace net ++ write_data_trace net ++
        [Ev.nextHydraulicStep, Ev.sleepSecond], ?_, ?_, ?_, ?_, ?_⟩
    · simp [cycle_trace, List.append_assoc]
    · simp [set_controls_trace]
    · simp [read_data_trace, write_data_trace]
    · simp only [set_controls_trace, List.forall_mem_cons,
        List.forall_mem_append, List.forall_mem_map]
      simp [Ev.isTelemetryRead]
    · simp only [read_data_trace, write_data_trace, List.forall_mem_cons,
        List.forall_mem_append, List.forall_mem_map]
      simp [Ev.isControlApply]

end OTSim
